import Mathlib

/-!
# Verification of the Mai-Shan-Yun inventory-intelligence pipeline

A shallow embedding of the consumption-derivation and inventory-metric
pipeline of the repository (files `intermediate_processing.py`,
`advanced_analysis.py`, `dashboard.py`).  Tables become lists of structures,
pandas column arithmetic becomes list arithmetic over `ℚ`, and the floating
standard deviations become `Real.sqrt` of exact rational variances.  Pandas
`NaN` semantics (a comparison against `NaN` is false) are made explicit as
length tests on the underlying series, noted at each definition.
-/

namespace MSY

/-- Arithmetic mean of a list of rationals (pandas `Series.mean`); yields `0`
on the empty list, a case the pipeline never evaluates. -/
def mean (xs : List ℚ) : ℚ := xs.sum / xs.length

/-- Sum of squared deviations from the mean. -/
def sqDevSum (xs : List ℚ) : ℚ := (xs.map (fun x => (x - mean xs) ^ 2)).sum

/-- Sample variance with `ddof = 1`, the square of pandas `Series.std()`.
For a series of length `≤ 1` pandas returns `NaN`; we return `0` and every
consumer of the standard deviation carries the explicit length test that
mirrors the fact that any comparison against `NaN` is false. -/
def sampleVar (xs : List ℚ) : ℚ :=
  if xs.length ≤ 1 then 0 else sqDevSum xs / ((xs.length : ℚ) - 1)

/-- Population variance (`ddof = 0`), used only to state the spec's
"population standard deviation" reading of the anomaly detector. -/
def popVar (xs : List ℚ) : ℚ :=
  if xs.length = 0 then 0 else sqDevSum xs / (xs.length : ℚ)

/-- Sample standard deviation, pandas `Series.std()` (`ddof = 1`). -/
noncomputable def sampleStd (xs : List ℚ) : ℝ := Real.sqrt (sampleVar xs)

/-- Population standard deviation (`ddof = 0`). -/
noncomputable def popStd (xs : List ℚ) : ℝ := Real.sqrt (popVar xs)

/-! ## Data model (`intermediate_processing.py`)

`SalesRecord` is one row of `monthly_sales_item.csv` (month, `level_name`,
`Count`, `Amount`); `Recipe` is one row of `ingredient_usage_cleaned.csv`
(item name plus one rational per ingredient column — the cleaning stage has
already replaced `NaN` cells by `0`). -/

structure SalesRecord where
  month : String
  level_name : String
  count : ℕ
  amount : ℚ
  deriving Repr, DecidableEq

structure Recipe where
  item_name : String
  ingredients : List (String × ℚ)
  deriving Repr, DecidableEq

/-- One row appended to `consumption_data` in the loop at
`intermediate_processing.py:60-83`. -/
structure ConsumptionRecord where
  month : String
  item_name : String
  sales_count : ℕ
  ingredient : String
  consumption_per_item : ℚ
  total_consumption : ℚ
  revenue : ℚ
  deriving Repr, DecidableEq

/-- The recipe matcher: the left merge of sales onto `ingredient_usage` on
`level_name = item_name` keeps, per sales row, the first recipe whose item
name is string-equal to the sold item's name, or none (`NaN` columns). -/
def lookupRecipe (recipes : List Recipe) (name : String) : Option Recipe :=
  recipes.find? (fun r => r.item_name == name)

/-- The dictionary appended inside the loop at
`intermediate_processing.py:73-81` for the ingredient column `p.1` with
per-item amount `p.2`. -/
def mkRecord (nm : String) (s : SalesRecord) (p : String × ℚ) : ConsumptionRecord :=
  { month := s.month
    item_name := nm
    sales_count := s.count
    ingredient := p.1
    consumption_per_item := p.2
    total_consumption := (s.count : ℚ) * p.2
    revenue := s.amount }

/-- The inner loop of `intermediate_processing.py:68-81`: one consumption
record per ingredient column whose per-item amount is `> 0` (a cleaned cell
is never `NaN`, so the `pd.notna` test is always true). -/
def recordsForSale (r : Recipe) (s : SalesRecord) : List ConsumptionRecord :=
  (r.ingredients.filter (fun p => decide (0 < p.2))).map (mkRecord r.item_name s)

/-- The full consumption-record list (`intermediate_processing.py:58-83`):
rows whose item name found no recipe are skipped (`pd.isna(row[item_name])`
⇒ `continue`). -/
def consumption_data (recipes : List Recipe) : List SalesRecord → List ConsumptionRecord
  | [] => []
  | s :: rest =>
      (match lookupRecipe recipes s.level_name with
        | none => []
        | some r => recordsForSale r s) ++ consumption_data recipes rest

/-- One row of the `(month, ingredient)` group-by aggregate
(`intermediate_processing.py:86-90`). -/
structure MonthlyRow where
  month : String
  ingredient : String
  total_consumption : ℚ
  sales_count : ℕ
  revenue : ℚ
  deriving Repr, DecidableEq

/-- Group key of a consumption record. -/
def crKey (c : ConsumptionRecord) : String × String := (c.month, c.ingredient)

/-- The aggregate row for one `(month, ingredient)` key: sums over the
key's group of consumption records. -/
def aggRow (records : List ConsumptionRecord) (k : String × String) : MonthlyRow :=
  { month := k.1
    ingredient := k.2
    total_consumption :=
      ((records.filter (fun c => decide (crKey c = k))).map
        (fun c => c.total_consumption)).sum
    sales_count :=
      ((records.filter (fun c => decide (crKey c = k))).map
        (fun c => c.sales_count)).sum
    revenue :=
      ((records.filter (fun c => decide (crKey c = k))).map
        (fun c => c.revenue)).sum }

/-- `consumption_df.groupby([month, ingredient]).agg(sum)`: one row per
distinct `(month, ingredient)` key, summing consumption, sales count and
revenue over the group.  (The subsequent calendar sort does not change the
row set and is not modelled.) -/
def monthly_consumption (records : List ConsumptionRecord) : List MonthlyRow :=
  ((records.map crKey).dedup).map (aggRow records)

/-- One row of `ingredient_summary` (`intermediate_processing.py:114-130`);
the shipment join is irrelevant to the claims and omitted. -/
structure SummaryRow where
  ingredient : String
  total_consumption_6months : ℚ
  avg_monthly_consumption : ℚ
  months_active : ℕ
  deriving Repr, DecidableEq

/-- The monthly series of one ingredient, in the row order of the aggregate
table. -/
def seriesOf (rows : List MonthlyRow) (ing : String) : List ℚ :=
  (rows.filter (fun r => r.ingredient == ing)).map (fun r => r.total_consumption)

/-- The summary row built for one ingredient at
`intermediate_processing.py:116-130`: sum, mean and count over exactly that
ingredient's aggregate rows. -/
def summaryFor (rows : List MonthlyRow) (ing : String) : SummaryRow :=
  { ingredient := ing
    total_consumption_6months := (seriesOf rows ing).sum
    avg_monthly_consumption := mean (seriesOf rows ing)
    months_active := (rows.filter (fun r => r.ingredient == ing)).length }

/-- One row of `item_sales_with_ingredients`
(`intermediate_processing.py:201-209`): every sales row is kept (left
merge), flagged by whether the merge found a recipe. -/
structure ItemSalesRow where
  month : String
  level_name : String
  count : ℕ
  amount : ℚ
  has_ingredient_data : Bool
  deriving Repr, DecidableEq

/-- `monthly_sales_item.merge(ingredient_usage, how='left')` followed by
`has_ingredient_data = item_name.notna()`. -/
def item_sales_with_ingredients (recipes : List Recipe) (sales : List SalesRecord) :
    List ItemSalesRow :=
  sales.map (fun s =>
    { month := s.month
      level_name := s.level_name
      count := s.count
      amount := s.amount
      has_ingredient_data := (lookupRecipe recipes s.level_name).isSome })

/-! ## Inventory metrics engine (`advanced_analysis.py`)

Each metric is a pure function of the ingredient's monthly series (the list
of its `total_consumption` values over its active months). -/

/-- `advanced_analysis.py:199`:
`safety_stock = 1.65 * std_monthly if std_monthly > 0 else avg_monthly * 0.2`.
`std_monthly` is pandas sample std; the Python guard `std_monthly > 0` is
true exactly when the series has `≥ 2` points and positive sample variance
(for one point the std is `NaN` and `NaN > 0` is false). -/
noncomputable def safety_stock (xs : List ℚ) : ℝ :=
  if 2 ≤ xs.length ∧ 0 < sampleVar xs then 1.65 * sampleStd xs
  else (mean xs : ℝ) * 0.2

/-- `advanced_analysis.py:202`: `reorder_point = avg_monthly + safety_stock`. -/
noncomputable def reorder_point (xs : List ℚ) : ℝ :=
  (mean xs : ℝ) + safety_stock xs

inductive RiskLevel where
  | LOW
  | MEDIUM
  | HIGH
  deriving Repr, DecidableEq

/-- `advanced_analysis.py:227-230`: `HIGH` if `std > avg * 0.5`, else
`MEDIUM` if `std > avg * 0.3`, else `LOW`.  As above, the float comparisons
against a possibly-`NaN` std carry the explicit `2 ≤ length` test (with a
single point both comparisons are false and the result is `LOW`). -/
noncomputable def risk_level (xs : List ℚ) : RiskLevel :=
  if 2 ≤ xs.length ∧ (mean xs : ℝ) * 0.5 < sampleStd xs then .HIGH
  else if 2 ≤ xs.length ∧ (mean xs : ℝ) * 0.3 < sampleStd xs then .MEDIUM
  else .LOW

/-! ### Anomaly detection (`advanced_analysis.py:143-163`)

Per ingredient: take the non-missing months (`dropna`); if more than 2 of
them, compute `mean` and (sample) `std`; if `std > 0`, flag every month with
`|value − mean| / std > 2`, reporting the z-score and
`(value − mean) / mean * 100`. -/

/-- The z-score the detector computes for the month whose value is `v`. -/
noncomputable def zscore (xs : List ℚ) (v : ℚ) : ℝ :=
  |(v : ℝ) - (mean xs : ℝ)| / sampleStd xs

/-- A month with value `v` of the series `xs` is flagged as an anomaly. -/
noncomputable def isAnomaly (xs : List ℚ) (v : ℚ) : Prop :=
  2 < xs.length ∧ 0 < sampleStd xs ∧ 2 < zscore xs v

/-- The signed percentage deviation reported with a flagged month. -/
noncomputable def anomalyDeviation (xs : List ℚ) (v : ℚ) : ℝ :=
  ((v : ℝ) - (mean xs : ℝ)) / (mean xs : ℝ) * 100

/-- The anomaly rule as the spec words it: population standard deviation in
place of the sample one.  Kept separate so that it can be compared with
`isAnomaly`, the rule the source implements. -/
noncomputable def isAnomalySpec (xs : List ℚ) (v : ℚ) : Prop :=
  2 < xs.length ∧ 0 < popStd xs ∧ 2 < |(v : ℝ) - (mean xs : ℝ)| / popStd xs

/-! ### Forecasting (`advanced_analysis.py:280-303`) -/

/-- `np.diff`: first differences of consecutive observed months. -/
def diffs (xs : List ℚ) : List ℚ :=
  (xs.zip xs.tail).map (fun p => p.2 - p.1)

/-- The degree-1 least-squares slope over `x = 0 .. n-1`
(`np.polyfit(x, values, 1)[0]` in exact arithmetic). -/
def lsSlope (l : List ℚ) : ℚ :=
  let n : ℚ := l.length
  let xs : List ℚ := (List.range l.length).map (fun i => (i : ℚ))
  let sx := xs.sum
  let sy := l.sum
  let sxy := ((xs.zip l).map (fun p => p.1 * p.2)).sum
  let sxx := (xs.map (fun x => x ^ 2)).sum
  (n * sxy - sx * sy) / (n * sxx - sx ^ 2)

/-- `advanced_analysis.py:291-294`: mean of the first differences when the
series has more than one point, else `0`. -/
def avg_change (l : List ℚ) : ℚ :=
  if 1 < l.length then mean (diffs l) else 0

/-- One row of `forecasting_data.csv`. -/
structure ForecastRow where
  ingredient : String
  trend_slope : ℚ
  avg_monthly_change : ℚ
  last_value : ℚ
  forecast_next_month : ℚ
  volatility : ℝ

/-- `advanced_analysis.py:282-303`: a forecast row is produced only when the
ingredient has at least 4 observed months; `forecast_next_month` is the last
observed value plus the mean first difference, and `volatility` is the
guarded ratio `std / mean` (0 when the mean is not positive). -/
noncomputable def forecast_row (ing : String) (l : List ℚ) : Option ForecastRow :=
  if 4 ≤ l.length then
    some
      { ingredient := ing
        trend_slope := lsSlope l
        avg_monthly_change := avg_change l
        last_value := l.getLastD 0
        forecast_next_month := l.getLastD 0 + avg_change l
        volatility := if 0 < mean l then sampleStd l / (mean l : ℝ) else 0 }
  else none

/-! ### Cost efficiency (`advanced_analysis.py:323-328`)

`revenue_per_unit = revenue / total_consumption` per ingredient, computed
with **no** guard on the denominator.  The embedding records, alongside the
rational quotient, whether the division's denominator was zero — i.e.
whether the source would have divided by zero at that row (pandas produces
`inf`/`NaN` there instead of raising). -/

structure EffRow where
  ingredient : String
  total_consumption : ℚ
  revenue : ℚ
  revenue_per_unit : ℚ
  div_by_zero : Bool
  deriving Repr, DecidableEq

/-- The cost-efficiency row of one ingredient. -/
def effRow (rows : List MonthlyRow) (ing : String) : EffRow :=
  { ingredient := ing
    total_consumption :=
      ((rows.filter (fun r => r.ingredient == ing)).map
        (fun r => r.total_consumption)).sum
    revenue :=
      ((rows.filter (fun r => r.ingredient == ing)).map (fun r => r.revenue)).sum
    revenue_per_unit :=
      ((rows.filter (fun r => r.ingredient == ing)).map (fun r => r.revenue)).sum
        / ((rows.filter (fun r => r.ingredient == ing)).map
            (fun r => r.total_consumption)).sum
    div_by_zero :=
      decide (((rows.filter (fun r => r.ingredient == ing)).map
        (fun r => r.total_consumption)).sum = 0) }

/-- The group-by of `consumption_monthly` over `ingredient`, summing
consumption and revenue, followed by the unguarded column division. -/
def efficiency_rows (rows : List MonthlyRow) : List EffRow :=
  ((rows.map (fun r => r.ingredient)).dedup).map (effRow rows)

/-- The volatility division of the forecast block
(`advanced_analysis.py:302`), with the same executed-division-by-zero flag:
the division only runs inside the `mean > 0` guard. -/
noncomputable def volatility_calc (l : List ℚ) : ℝ × Bool :=
  if 0 < mean l then (sampleStd l / (mean l : ℝ), decide (mean l = 0))
  else (0, false)

/-! ## Dashboard inventory-status simulation (`dashboard.py:543-584`)

`current_inventory` is simulated as `reorder_point * 0.8`; daily consumption
is `forecast_next_month / 30`; the status thresholds and the clamp of
`days_until_reorder` are as in the source. -/

inductive InvStatus where
  | Good
  | Low
  | Critical
  deriving Repr, DecidableEq

structure InvStatusRow where
  current_inventory : ℚ
  reorder_point : ℚ
  status : InvStatus
  forecasted_consumption : ℚ
  days_of_supply : ℚ
  recommended_order_qty : ℚ
  days_until_reorder : ℚ
  is_overstocked : Bool
  deriving Repr, DecidableEq

/-- The per-ingredient body of the loop at `dashboard.py:544-584` (run only
when a forecast row exists for the ingredient). -/
def inventory_status_row (rp safety forecast : ℚ) : InvStatusRow :=
  let current : ℚ := rp * 0.8
  let daily : ℚ := forecast / 30
  let dos : ℚ := if 0 < daily then current / daily else 999
  let rec0 : ℚ := max 0 (rp - current + safety)
  let d : ℚ := if 0 < daily then (current - rp) / daily else 999
  { current_inventory := current
    reorder_point := rp
    status :=
      if rp < current then .Good
      else if rp * 0.5 < current then .Low
      else .Critical
    forecasted_consumption := forecast
    days_of_supply := dos
    recommended_order_qty := rec0
    days_until_reorder := if d < 0 then 0 else d
    is_overstocked := decide (forecast * 1.5 < current) }

/-! ## General list lemmas -/

lemma sum_map_add (f g : α → ℚ) (l : List α) :
    (l.map (fun a => f a + g a)).sum = (l.map f).sum + (l.map g).sum := by
  induction l with
  | nil => simp
  | cons a t ih => simp [ih]; ring

lemma sum_map_ite_key [DecidableEq κ] (k0 : κ) (c : ℚ) :
    ∀ K : List κ, K.Nodup → k0 ∈ K →
      (K.map (fun k => if k0 = k then c else 0)).sum = c := by
  intro K
  induction K with
  | nil => intro _ h; cases h
  | cons k rest ih =>
    intro hnd hk
    rcases List.mem_cons.mp hk with h | h
    · subst h
      have hnot : k0 ∉ rest := (List.nodup_cons.mp hnd).1
      have : (rest.map (fun k => if k0 = k then c else 0)).sum = 0 := by
        have : rest.map (fun k => if k0 = k then c else 0) = rest.map (fun _ => 0) := by
          apply List.map_eq_map_iff.mpr
          intro x hx
          have : k0 ≠ x := fun h => hnot (h ▸ hx)
          simp [this]
        rw [this]; simp
      simp [this]
    · have hk0k : k0 ≠ k := by
        rintro rfl
        exact (List.nodup_cons.mp hnd).1 h
      simp only [List.map_cons, List.sum_cons, if_neg hk0k, zero_add]
      exact ih (List.nodup_cons.mp hnd).2 h

lemma sum_map_ite_key_zero [DecidableEq κ] (k0 : κ) (c : ℚ) (K : List κ)
    (hk : k0 ∉ K) :
    (K.map (fun k => if k0 = k then c else 0)).sum = 0 := by
  have : K.map (fun k => if k0 = k then c else 0) = K.map (fun _ => 0) := by
    apply List.map_eq_map_iff.mpr
    intro x hx
    have : k0 ≠ x := fun h => hk (h ▸ hx)
    simp [this]
  rw [this]; simp

/-- Splitting one group off a filtered sum: the contribution of the head
element goes to exactly its own key. -/
lemma group_sum_cons [DecidableEq κ] (key : α → κ) (f : α → ℚ) (a : α) (t : List α)
    (k : κ) :
    (((a :: t).filter (fun x => decide (key x = k))).map f).sum
      = (if key a = k then f a else 0)
        + ((t.filter (fun x => decide (key x = k))).map f).sum := by
  by_cases h : key a = k <;> simp [List.filter_cons, h]

/-- A group-by with per-group sums loses nothing: summing the group sums
over the deduplicated key list gives the sum over the original list. -/
lemma groups_sum [DecidableEq κ] (key : α → κ) (f : α → ℚ) :
    ∀ L : List α,
      (((L.map key).dedup).map
          (fun k => ((L.filter (fun a => decide (key a = k))).map f).sum)).sum
        = (L.map f).sum := by
  intro L
  induction L with
  | nil => simp
  | cons a t ih =>
    have hsplit :
        ((a :: t).map key).dedup.map
            (fun k => (((a :: t).filter (fun x => decide (key x = k))).map f).sum)
          = ((a :: t).map key).dedup.map
              (fun k => (if key a = k then f a else 0)
                + ((t.filter (fun x => decide (key x = k))).map f).sum) := by
      apply List.map_eq_map_iff.mpr
      intro k _
      exact group_sum_cons key f a t k
    by_cases hmem : key a ∈ t.map key
    · rw [List.map_cons, List.dedup_cons_of_mem hmem] at hsplit ⊢
      rw [hsplit, sum_map_add, sum_map_ite_key (key a) (f a) _
            (List.nodup_dedup _) (List.mem_dedup.mpr hmem), ih]
      simp
    · rw [List.map_cons, List.dedup_cons_of_not_mem hmem] at hsplit ⊢
      rw [hsplit]
      simp only [List.map_cons, List.sum_cons, if_pos rfl]
      have hgrp : (t.filter (fun x => decide (key x = key a))).map f = [] := by
        have : t.filter (fun x => decide (key x = key a)) = [] := by
          rw [List.filter_eq_nil_iff]
          intro x hx
          simp only [decide_eq_true_eq]
          exact fun h => hmem (h ▸ List.mem_map_of_mem key hx)
        simp [this]
      rw [hgrp, sum_map_add,
          sum_map_ite_key_zero (key a) (f a) _ (fun h => hmem (List.mem_dedup.mp h)),
          ih]
      simp

/-- `dedup` commutes with `filter`. -/
lemma dedup_filter [DecidableEq α] (p : α → Bool) :
    ∀ l : List α, (l.filter p).dedup = l.dedup.filter p := by
  intro l
  induction l with
  | nil => rfl
  | cons a t ih =>
    by_cases hp : p a
    · rw [List.filter_cons_of_pos hp]
      by_cases hmem : a ∈ t
      · have h1 : a ∈ t.filter p := List.mem_filter.mpr ⟨hmem, hp⟩
        rw [List.dedup_cons_of_mem h1, List.dedup_cons_of_mem hmem, ih]
      · have h1 : a ∉ t.filter p := fun h => hmem (List.mem_filter.mp h).1
        rw [List.dedup_cons_of_not_mem h1, List.dedup_cons_of_not_mem hmem,
            List.filter_cons_of_pos hp, ih]
    · rw [List.filter_cons_of_neg (by simpa using hp)]
      by_cases hmem : a ∈ t
      · rw [List.dedup_cons_of_mem hmem, ih]
      · rw [List.dedup_cons_of_not_mem hmem,
            List.filter_cons_of_neg (by simpa using hp), ih]

lemma sum_map_sub_const (c : ℚ) : ∀ l : List ℚ,
    (l.map (fun x => x - c)).sum = l.sum - (l.length : ℚ) * c := by
  intro l
  induction l with
  | nil => simp
  | cons a t ih => simp [ih]; ring

lemma sum_map_sq_nonneg (l : List ℚ) : 0 ≤ (l.map (fun x => x ^ 2)).sum := by
  induction l with
  | nil => simp
  | cons a t ih => simpa using add_nonneg (sq_nonneg a) ih

/-- Cauchy–Schwarz for list sums: `(Σ x)² ≤ n · Σ x²`. -/
lemma sq_sum_le_length_mul_sum_sq : ∀ l : List ℚ,
    l.sum ^ 2 ≤ (l.length : ℚ) * (l.map (fun x => x ^ 2)).sum := by
  intro l
  induction l with
  | nil => simp
  | cons a t ih =>
    rcases t with _ | ⟨b, t⟩
    · simp
    · set s := (b :: t).sum with hs
      set q := ((b :: t).map (fun x => x ^ 2)).sum with hq
      set k : ℚ := ((b :: t).length : ℚ) with hk
      have hkpos : 0 < k := by
        rw [hk]; exact_mod_cast Nat.succ_pos t.length
      have hqnn : 0 ≤ q := sum_map_sq_nonneg _
      have hcs : s ^ 2 ≤ k * q := ih
      have key : k * ((k + 1) * (a ^ 2 + q) - (a + s) ^ 2)
          = (k * a - s) ^ 2 + (k + 1) * (k * q - s ^ 2) := by ring
      have h1 : 0 ≤ (k * a - s) ^ 2 := sq_nonneg _
      have h2 : 0 ≤ (k + 1) * (k * q - s ^ 2) := by
        apply mul_nonneg (by linarith) (by linarith)
      have h3 : 0 ≤ k * ((k + 1) * (a ^ 2 + q) - (a + s) ^ 2) := by
        rw [key]; exact add_nonneg h1 h2
      have h4 : 0 ≤ (k + 1) * (a ^ 2 + q) - (a + s) ^ 2 :=
        nonneg_of_mul_nonneg_right h3 hkpos
      have hlen : ((a :: b :: t).length : ℚ) = k + 1 := by
        rw [hk]; push_cast [List.length_cons]; ring
      calc (a :: b :: t).sum ^ 2 = (a + s) ^ 2 := by rw [List.sum_cons]
        _ ≤ (k + 1) * (a ^ 2 + q) := by linarith
        _ = ((a :: b :: t).length : ℚ)
              * (((a :: b :: t).map (fun x => x ^ 2)).sum) := by
            rw [hlen, List.map_cons, List.sum_cons]

/-! ## Statistics lemmas -/

lemma sqDevSum_nonneg (xs : List ℚ) : 0 ≤ sqDevSum xs := by
  apply List.sum_nonneg
  intro x hx
  obtain ⟨y, _, rfl⟩ := List.mem_map.mp hx
  exact sq_nonneg _

lemma sampleVar_nonneg (xs : List ℚ) : 0 ≤ sampleVar xs := by
  unfold sampleVar
  split
  · exact le_refl 0
  · rename_i h
    push_neg at h
    apply div_nonneg (sqDevSum_nonneg xs)
    have : (2 : ℚ) ≤ (xs.length : ℚ) := by exact_mod_cast h
    linarith

lemma popVar_nonneg (xs : List ℚ) : 0 ≤ popVar xs := by
  unfold popVar
  split
  · exact le_refl 0
  · exact div_nonneg (sqDevSum_nonneg xs) (by positivity)

lemma length_of_sampleVar_pos {xs : List ℚ} (h : 0 < sampleVar xs) :
    2 ≤ xs.length := by
  by_contra hlt
  push_neg at hlt
  rw [sampleVar, if_pos (by omega)] at h
  exact lt_irrefl 0 h

lemma sampleStd_pos_iff (xs : List ℚ) : 0 < sampleStd xs ↔ 0 < sampleVar xs := by
  rw [sampleStd, Real.sqrt_pos]
  exact_mod_cast Iff.rfl

lemma popStd_pos_iff (xs : List ℚ) : 0 < popStd xs ↔ 0 < popVar xs := by
  rw [popStd, Real.sqrt_pos]
  exact_mod_cast Iff.rfl

lemma sampleStd_nonneg (xs : List ℚ) : 0 ≤ sampleStd xs := Real.sqrt_nonneg _

/-- The float comparison `|a| / √q > 2` in exact arithmetic. -/
lemma two_lt_abs_div_sqrt_iff {a q : ℝ} (hq : 0 < q) :
    2 < |a| / Real.sqrt q ↔ 4 * q < a ^ 2 := by
  have hs : 0 < Real.sqrt q := Real.sqrt_pos.mpr hq
  have h4 : Real.sqrt (4 * q) = 2 * Real.sqrt q := by
    rw [show (4 : ℝ) * q = (2 : ℝ) ^ 2 * q by ring,
        Real.sqrt_mul (by positivity) q, Real.sqrt_sq (by norm_num)]
  rw [lt_div_iff₀ hs, ← Real.sqrt_sq_eq_abs a, ← h4]
  exact Real.sqrt_lt_sqrt_iff (by positivity)

/-- The code's anomaly test, characterized in exact rational arithmetic:
a month is flagged iff the series has over 2 points, positive sample
variance, and squared deviation exceeding `4 ×` the sample variance. -/
lemma isAnomaly_iff (xs : List ℚ) (v : ℚ) :
    isAnomaly xs v ↔
      2 < xs.length ∧ 0 < sampleVar xs ∧
        4 * sampleVar xs < (v - mean xs) ^ 2 := by
  unfold isAnomaly
  rw [sampleStd_pos_iff]
  refine and_congr_right fun _ => and_congr_right fun h2 => ?_
  have hq : (0 : ℝ) < ((sampleVar xs : ℚ) : ℝ) := by exact_mod_cast h2
  unfold zscore sampleStd
  rw [show (v : ℝ) - ((mean xs : ℚ) : ℝ) = (((v - mean xs : ℚ)) : ℝ) by push_cast; ring,
      two_lt_abs_div_sqrt_iff hq]
  constructor
  · intro h; exact_mod_cast h
  · intro h; exact_mod_cast h

/-- The spec-worded (population-std) anomaly test, in exact arithmetic. -/
lemma isAnomalySpec_iff (xs : List ℚ) (v : ℚ) :
    isAnomalySpec xs v ↔
      2 < xs.length ∧ 0 < popVar xs ∧
        4 * popVar xs < (v - mean xs) ^ 2 := by
  unfold isAnomalySpec
  rw [popStd_pos_iff]
  refine and_congr_right fun _ => and_congr_right fun h2 => ?_
  have hq : (0 : ℝ) < ((popVar xs : ℚ) : ℝ) := by exact_mod_cast h2
  unfold popStd
  rw [show (v : ℝ) - ((mean xs : ℚ) : ℝ) = (((v - mean xs : ℚ)) : ℝ) by push_cast; ring,
      two_lt_abs_div_sqrt_iff hq]
  constructor
  · intro h; exact_mod_cast h
  · intro h; exact_mod_cast h

/-- Samuelson-type bound: no element of a list deviates from the mean by
more than `√((n-1)/n · Σ squared deviations)`. -/
lemma samuelson (xs : List ℚ) (v : ℚ) (hv : v ∈ xs) :
    (xs.length : ℚ) * (v - mean xs) ^ 2 ≤ ((xs.length : ℚ) - 1) * sqDevSum xs := by
  obtain ⟨l1, l2, rfl⟩ := List.mem_iff_append.mp hv
  set xs := l1 ++ v :: l2 with hxs
  set m := mean xs with hm
  set n : ℚ := (xs.length : ℚ) with hn
  have hlen : xs.length = l1.length + l2.length + 1 := by
    simp [hxs]; omega
  have hnpos : 0 < n := by
    rw [hn]
    exact_mod_cast Nat.pos_of_ne_zero (by simp [hlen])
  have hSum : xs.sum = n * m := by
    rw [hm, mean, ← hn]
    field_simp
  set ys := l1 ++ l2 with hys
  have hylen : (ys.length : ℚ) = n - 1 := by
    rw [hn, hys]
    push_cast [List.length_append, hlen]
    ring
  have hysum : ys.sum = xs.sum - v := by
    simp [hys, hxs, List.sum_append, List.sum_cons]
    ring
  -- the deviations of the other n-1 points sum to m - v
  have hdev : (ys.map (fun y => y - m)).sum = m - v := by
    rw [sum_map_sub_const, hysum, hSum, hylen]
    ring
  -- Cauchy–Schwarz on those deviations
  have hcs := sq_sum_le_length_mul_sum_sq (ys.map (fun y => y - m))
  rw [hdev, List.length_map, List.map_map] at hcs
  have hcomp : ((fun x => x ^ 2) ∘ fun y => y - m) = fun y => (y - m) ^ 2 := rfl
  rw [hcomp, hylen] at hcs
  set Sys := (ys.map (fun y => (y - m) ^ 2)).sum with hSys
  -- split the squared-deviation sum of the full list
  have hsplit : sqDevSum xs = (v - m) ^ 2 + Sys := by
    rw [sqDevSum, ← hm, hSys, hys, hxs]
    simp [List.map_append, List.sum_append, List.map_cons, List.sum_cons]
    ring
  have h1 : (v - m) ^ 2 ≤ (n - 1) * Sys := by
    calc (v - m) ^ 2 = (m - v) ^ 2 := by ring
      _ ≤ (n - 1) * Sys := hcs
  calc n * (v - m) ^ 2 = (n - 1) * (v - m) ^ 2 + (v - m) ^ 2 := by ring
    _ ≤ (n - 1) * (v - m) ^ 2 + (n - 1) * Sys := by linarith
    _ = (n - 1) * ((v - m) ^ 2 + Sys) := by ring
    _ = (n - 1) * sqDevSum xs := by rw [hsplit]

/-! ## Claim C1: one consumption record per positive recipe ingredient -/

lemma filter_mkRecord_not_mem (nm : String) (s : SalesRecord) (ing : String) :
    ∀ l : List (String × ℚ), ing ∉ l.map Prod.fst →
      (((l.filter (fun p => decide (0 < p.2))).map (mkRecord nm s)).filter
        (fun c => c.ingredient == ing)) = [] := by
  intro l
  induction l with
  | nil => intro _; rfl
  | cons a t ih =>
    intro hl
    have ha : a.1 ≠ ing := fun h =>
      hl (h ▸ List.mem_map_of_mem Prod.fst (List.mem_cons_self a t))
    have ht : ing ∉ t.map Prod.fst := fun h => hl (by
      rcases List.mem_map.mp h with ⟨b, hb, rfl⟩
      exact List.mem_map_of_mem Prod.fst (List.mem_cons_of_mem a hb))
    by_cases hp : 0 < a.2
    · rw [List.filter_cons_of_pos (by simpa using hp), List.map_cons,
          List.filter_cons_of_neg (by simp [mkRecord, ha])]
      exact ih ht
    · rw [List.filter_cons_of_neg (by simpa using hp)]
      exact ih ht

lemma filter_recordsFor (nm : String) (s : SalesRecord) (ing : String) (amt : ℚ) :
    ∀ l : List (String × ℚ), (l.map Prod.fst).Nodup → (ing, amt) ∈ l →
      (((l.filter (fun p => decide (0 < p.2))).map (mkRecord nm s)).filter
          (fun c => c.ingredient == ing))
        = if 0 < amt then [mkRecord nm s (ing, amt)] else [] := by
  intro l
  induction l with
  | nil => intro _ h; cases h
  | cons a t ih =>
    intro hnd hmem
    rcases List.mem_cons.mp hmem with h | h
    · subst h
      have hnot : ing ∉ t.map Prod.fst := by simpa using (List.nodup_cons.mp hnd).1
      by_cases hp : 0 < amt
      · rw [List.filter_cons_of_pos (by simpa using hp), List.map_cons,
            List.filter_cons_of_pos (by simp [mkRecord]),
            filter_mkRecord_not_mem nm s ing t hnot, if_pos hp]
      · rw [List.filter_cons_of_neg (by simpa using hp),
            filter_mkRecord_not_mem nm s ing t hnot, if_neg hp]
    · have ha : a.1 ≠ ing := by
        intro heq
        exact (List.nodup_cons.mp hnd).1
          (heq ▸ List.mem_map_of_mem Prod.fst h)
      have ih2 := ih (List.nodup_cons.mp hnd).2 h
      by_cases hp : 0 < a.2
      · rw [List.filter_cons_of_pos (by simpa using hp), List.map_cons,
            List.filter_cons_of_neg (by simp [mkRecord, ha]), ih2]
      · rw [List.filter_cons_of_neg (by simpa using hp), ih2]

/-- Claim C1:  For a sales record whose item name matched the recipe `r`
(recipe ingredient columns being distinct), each ingredient of the recipe
with a positive per-unit amount yields exactly one consumption record,
carrying `total_consumption = units_sold × amount_per_unit` and the sales
record's full, unreduced revenue; an ingredient with amount `0` (or any
non-positive amount) yields no record at all. -/
theorem consumption_record_per_positive_ingredient
    (recipes : List Recipe) (s : SalesRecord) (r : Recipe)
    (hr : lookupRecipe recipes s.level_name = some r)
    (hnd : (r.ingredients.map Prod.fst).Nodup)
    (ing : String) (amt : ℚ) (hmem : (ing, amt) ∈ r.ingredients) :
    ((consumption_data recipes [s]).filter (fun c => c.ingredient == ing))
      = if 0 < amt then
          [{ month := s.month
             item_name := r.item_name
             sales_count := s.count
             ingredient := ing
             consumption_per_item := amt
             total_consumption := (s.count : ℚ) * amt
             revenue := s.amount }]
        else [] := by
  have h1 : consumption_data recipes [s] = recordsForSale r s := by
    rw [consumption_data, hr, consumption_data, List.append_nil]
  rw [h1, recordsForSale]
  exact filter_recordsFor r.item_name s ing amt r.ingredients hnd hmem

/-- Witness for C1, the spec's own example: "Beef Noodle" sells 100 units in
May with 150 g of beef per unit and revenue 800; exactly one beef record
appears, with consumption 15000 and the full revenue 800. -/
theorem consumption_record_witness :
    ((consumption_data
          [⟨"Beef Noodle", [("beef_g", 150), ("noodle_g", 200)]⟩]
          [⟨"May", "Beef Noodle", 100, 800⟩]).filter
        (fun c => c.ingredient == "beef_g"))
      = [⟨"May", "Beef Noodle", 100, "beef_g", 150, 15000, 800⟩] := by
  have h := consumption_record_per_positive_ingredient
      [⟨"Beef Noodle", [("beef_g", 150), ("noodle_g", 200)]⟩]
      ⟨"May", "Beef Noodle", 100, 800⟩
      ⟨"Beef Noodle", [("beef_g", 150), ("noodle_g", 200)]⟩
      (by rfl)
      (by simp)
      "beef_g" 150 (by simp)
  rw [h, if_pos (by norm_num)]
  norm_num

/-! ## Claim C2: the anomaly rule (sample std, not population std) -/

/-- Claim C2 (amended):  For every ingredient series, a month is flagged as an
anomaly exactly when the series has at least 3 non-missing months, its
*sample* (ddof = 1) standard deviation is positive, and
`|value − mean| / sample_std > 2` — equivalently, in exact arithmetic, when
the squared deviation exceeds `4 ×` the sample variance; a series with fewer
than 3 non-missing months never produces an anomaly row, and a flagged month
reports the z-score `|value − mean| / std` and the signed percentage
deviation `(value − mean) / mean × 100`. -/
theorem anomaly_rule_sample_std (xs : List ℚ) (v : ℚ) :
    (isAnomaly xs v ↔
        2 < xs.length ∧ 0 < sampleVar xs ∧
          4 * sampleVar xs < (v - mean xs) ^ 2)
      ∧ (xs.length < 3 → ¬ isAnomaly xs v)
      ∧ zscore xs v = |(v : ℝ) - (mean xs : ℝ)| / sampleStd xs
      ∧ anomalyDeviation xs v = ((v : ℝ) - (mean xs : ℝ)) / (mean xs : ℝ) * 100 := by
  refine ⟨isAnomaly_iff xs v, ?_, rfl, rfl⟩
  rintro h3 ⟨h1, -, -⟩
  omega

/-- Witness for C2: in the series `[10,10,10,10,10,100]` the month with
value `100` is flagged (sample variance `1350`, and `5625 > 5400`). -/
theorem anomaly_rule_witness :
    isAnomaly [(10 : ℚ), 10, 10, 10, 10, 100] 100 := by
  refine (anomaly_rule_sample_std [(10 : ℚ), 10, 10, 10, 10, 100] 100).1.mpr
    ⟨by norm_num, ?_, ?_⟩ <;>
    norm_num [sampleVar, sqDevSum, mean]

/-- Counterexample for C2 as stated: the spec's population-std rule and the
code's sample-std rule disagree on the series `[0,0,0,0,3,10]` at the month
with value `10` — its population z-score is `≈ 2.13 > 2` but its sample
z-score is `≈ 1.95 ≤ 2`, so the claimed rule flags it while the code does
not. -/
theorem anomaly_population_vs_sample_counterexample :
    isAnomalySpec [(0 : ℚ), 0, 0, 0, 3, 10] 10
      ∧ ¬ isAnomaly [(0 : ℚ), 0, 0, 0, 3, 10] 10 := by
  constructor
  · refine (isAnomalySpec_iff [(0 : ℚ), 0, 0, 0, 3, 10] 10).mpr
      ⟨by norm_num, ?_, ?_⟩ <;>
      norm_num [popVar, sqDevSum, mean]
  · intro h
    rcases (isAnomaly_iff [(0 : ℚ), 0, 0, 0, 3, 10] 10).mp h with ⟨-, -, hz⟩
    norm_num [sampleVar, sqDevSum, mean] at hz

/-! ## Claim C3: guarded vs unguarded divisions in the metrics engine -/

/-- Claim C3 (amended):  The volatility division is guarded (it runs only
under `mean > 0`, so it never executes with a zero denominator), but the
cost-efficiency division `revenue_per_unit = revenue / total_consumption`
is unguarded: it divides by zero exactly when the ingredient's total
consumption is zero. -/
theorem division_guard_status :
    (∀ l : List ℚ, (volatility_calc l).2 = false) ∧
    (∀ rows : List MonthlyRow, ∀ r ∈ efficiency_rows rows,
      (r.div_by_zero = true ↔ r.total_consumption = 0)) := by
  constructor
  · intro l
    unfold volatility_calc
    split
    · rename_i h
      simp [ne_of_gt h]
    · rfl
  · intro rows r hr
    obtain ⟨ing, -, rfl⟩ := List.mem_map.mp hr
    simp [effRow]

/-- Witness for C3 (amended): a concrete guarded volatility computation and
a concrete efficiency row with nonzero consumption, hence no zero division. -/
theorem division_guard_witness :
    (volatility_calc [(1 : ℚ), 2]).2 = false ∧
    ((effRow [⟨"May", "beef_g", 10, 2, 800⟩] "beef_g").div_by_zero = true ↔
      (effRow [⟨"May", "beef_g", 10, 2, 800⟩] "beef_g").total_consumption = 0) := by
  refine ⟨division_guard_status.1 [(1 : ℚ), 2],
    division_guard_status.2 [⟨"May", "beef_g", 10, 2, 800⟩] _ ?_⟩
  rw [efficiency_rows]
  exact List.mem_map_of_mem _ (by simp)

/-- Counterexample for C3 as stated: a matched item sold 0 units in May
(units ≥ 0 is allowed by the input contract) produces an ingredient whose
total 6-month consumption is `0`, and the cost-efficiency computation then
performs its division with a zero denominator — there is no guarded
fallback in `advanced_analysis.py:328`. -/
theorem revenue_per_unit_divides_by_zero :
    ((efficiency_rows (monthly_consumption (consumption_data
          [⟨"Beef Noodle", [("beef_g", 150)]⟩]
          [⟨"May", "Beef Noodle", 0, 800⟩]))).map
        (fun r => (r.total_consumption, r.div_by_zero)))
      = [((0 : ℚ), true)] := by
  simp [consumption_data, lookupRecipe, recordsForSale, mkRecord,
    monthly_consumption, aggRow, crKey, efficiency_rows, effRow]

/-! ## Claim C4: safety stock and reorder point -/

/-- Claim C4:  `safety_stock = 1.65 × std(monthly_consumption)` whenever that
standard deviation is positive, else the fallback
`0.2 × avg_monthly_consumption`; a single-month series always takes the
fallback; and `reorder_point = avg_monthly_consumption + safety_stock`. -/
theorem safety_stock_rule (xs : List ℚ) :
    (0 < sampleStd xs → safety_stock xs = 1.65 * sampleStd xs) ∧
    (¬ 0 < sampleStd xs → safety_stock xs = (mean xs : ℝ) * 0.2) ∧
    (xs.length = 1 → safety_stock xs = (mean xs : ℝ) * 0.2) ∧
    reorder_point xs = (mean xs : ℝ) + safety_stock xs := by
  have hcond : (2 ≤ xs.length ∧ 0 < sampleVar xs) ↔ 0 < sampleStd xs := by
    rw [sampleStd_pos_iff]
    exact ⟨And.right, fun h => ⟨length_of_sampleVar_pos h, h⟩⟩
  refine ⟨?_, ?_, ?_, rfl⟩
  · intro h
    rw [safety_stock, if_pos (hcond.mpr h)]
  · intro h
    rw [safety_stock, if_neg (fun hc => h (hcond.mp hc))]
  · intro h1
    rw [safety_stock, if_neg (by rw [h1]; rintro ⟨h2, -⟩; omega)]

/-- Witness for C4, the spec's example: the zero-variance series
`[100,100,100,100]` gets fallback safety stock `20` and reorder point
`120`. -/
theorem safety_stock_witness :
    safety_stock [(100 : ℚ), 100, 100, 100] = 20 ∧
    reorder_point [(100 : ℚ), 100, 100, 100] = 120 := by
  have hstd : ¬ 0 < sampleStd [(100 : ℚ), 100, 100, 100] := by
    rw [sampleStd_pos_iff]
    norm_num [sampleVar, sqDevSum, mean]
  have hfall := (safety_stock_rule [(100 : ℚ), 100, 100, 100]).2.1 hstd
  have hmean : mean [(100 : ℚ), 100, 100, 100] = 100 := by norm_num [mean]
  constructor
  · rw [hfall, hmean]
    norm_num
  · rw [(safety_stock_rule [(100 : ℚ), 100, 100, 100]).2.2.2, hfall, hmean]
    norm_num

/-! ## Claim C5: risk-level thresholds -/

/-- Claim C5:  For every series whose standard deviation is defined (at least
two active months), the risk level is `HIGH` iff `std > 0.5 × avg`,
`MEDIUM` iff `0.3 × avg < std ≤ 0.5 × avg`, and `LOW` iff `std ≤ 0.3 × avg`
— three exhaustive, non-overlapping cases with strict boundaries. -/
theorem risk_level_thresholds (xs : List ℚ) (h2 : 2 ≤ xs.length) :
    (risk_level xs = RiskLevel.HIGH ↔ (mean xs : ℝ) * 0.5 < sampleStd xs) ∧
    (risk_level xs = RiskLevel.MEDIUM ↔
      (mean xs : ℝ) * 0.3 < sampleStd xs ∧ sampleStd xs ≤ (mean xs : ℝ) * 0.5) ∧
    (risk_level xs = RiskLevel.LOW ↔ sampleStd xs ≤ (mean xs : ℝ) * 0.3) := by
  have hstd0 : 0 ≤ sampleStd xs := sampleStd_nonneg xs
  by_cases hH : (mean xs : ℝ) * 0.5 < sampleStd xs
  · have hrl : risk_level xs = RiskLevel.HIGH := by
      rw [risk_level, if_pos ⟨h2, hH⟩]
    rw [hrl]
    refine ⟨iff_of_true rfl hH, iff_of_false (by simp) ?_, iff_of_false (by simp) ?_⟩
    · rintro ⟨-, hle⟩
      linarith
    · intro hle
      linarith
  · by_cases hM : (mean xs : ℝ) * 0.3 < sampleStd xs
    · have hrl : risk_level xs = RiskLevel.MEDIUM := by
        rw [risk_level, if_neg (fun hc => hH hc.2), if_pos ⟨h2, hM⟩]
      rw [hrl]
      refine ⟨iff_of_false (by simp) hH, iff_of_true rfl ⟨hM, not_lt.mp hH⟩,
        iff_of_false (by simp) ?_⟩
      intro hle
      linarith
    · have hrl : risk_level xs = RiskLevel.LOW := by
        rw [risk_level, if_neg (fun hc => hH hc.2), if_neg (fun hc => hM hc.2)]
      rw [hrl]
      exact ⟨iff_of_false (by simp) hH, iff_of_false (by simp) (fun hc => hM hc.1),
        iff_of_true rfl (not_lt.mp hM)⟩

/-- Witness for C5: the series `[1,3]` has mean `2` and sample std `√2`,
and `√2 > 1 = 0.5 × 2`, so it is classified `HIGH`. -/
theorem risk_level_witness :
    risk_level [(1 : ℚ), 3] = RiskLevel.HIGH := by
  refine (risk_level_thresholds [(1 : ℚ), 3] (by norm_num)).1.mpr ?_
  have hvar : sampleVar [(1 : ℚ), 3] = 2 := by
    norm_num [sampleVar, sqDevSum, mean]
  have hmean : mean [(1 : ℚ), 3] = 2 := by norm_num [mean]
  rw [sampleStd, hvar, hmean]
  calc ((2 : ℚ) : ℝ) * 0.5 = 1 := by norm_num
    _ < Real.sqrt ((2 : ℚ) : ℝ) := by
        rw [show ((2 : ℚ) : ℝ) = (2 : ℝ) by norm_num]
        exact (Real.lt_sqrt (by norm_num)).mpr (by norm_num)

/-! ## Claim C6: forecast-row existence and the persistence-plus-drift
forecast -/

/-- Claim C6:  A forecast row exists iff the series has at least 4 observed
months, and in that row `forecast_next_month = last_value +
avg_monthly_change` exactly, where `avg_monthly_change` is the mean of the
first differences of consecutive observed months — a quantity computed
independently of `trend_slope`, which is the degree-1 least-squares slope
over `x = 0 .. n-1`. -/
theorem forecast_rule (ing : String) (l : List ℚ) :
    ((forecast_row ing l).isSome = true ↔ 4 ≤ l.length) ∧
    ∀ row, forecast_row ing l = some row →
      row.forecast_next_month = row.last_value + row.avg_monthly_change ∧
      row.avg_monthly_change = mean (diffs l) ∧
      row.trend_slope = lsSlope l ∧
      row.last_value = l.getLastD 0 := by
  constructor
  · by_cases h4 : 4 ≤ l.length
    · rw [forecast_row, if_pos h4]
      exact iff_of_true rfl h4
    · rw [forecast_row, if_neg h4]
      exact iff_of_false (by simp) h4
  · intro row hrow
    by_cases h4 : 4 ≤ l.length
    · rw [forecast_row, if_pos h4] at hrow
      obtain rfl := (Option.some.inj hrow).symm
      refine ⟨rfl, ?_, rfl, rfl⟩
      show avg_change l = mean (diffs l)
      rw [avg_change, if_pos (by omega)]
    · rw [forecast_row, if_neg h4] at hrow
      cases hrow

/-- Witness for C6, the spec's example: the series `[100,100,100,100]`
yields a forecast row with zero slope, zero average change, and forecast
`100 = 100 + 0`. -/
theorem forecast_rule_witness :
    (forecast_row "x" [(100 : ℚ), 100, 100, 100]).isSome = true ∧
    ((⟨"x", 0, 0, 100, 100, 0⟩ : ForecastRow).forecast_next_month
      = (⟨"x", 0, 0, 100, 100, 0⟩ : ForecastRow).last_value
        + (⟨"x", 0, 0, 100, 100, 0⟩ : ForecastRow).avg_monthly_change) := by
  have heq : forecast_row "x" [(100 : ℚ), 100, 100, 100]
      = some (⟨"x", 0, 0, 100, 100, 0⟩ : ForecastRow) := by
    rw [forecast_row, if_pos (by norm_num)]
    have hmean : mean [(100 : ℚ), 100, 100, 100] = 100 := by norm_num [mean]
    have hvar : sampleVar [(100 : ℚ), 100, 100, 100] = 0 := by
      norm_num [sampleVar, sqDevSum, mean]
    have hvol : (if 0 < mean [(100 : ℚ), 100, 100, 100] then
        sampleStd [(100 : ℚ), 100, 100, 100]
          / ((mean [(100 : ℚ), 100, 100, 100] : ℚ) : ℝ) else 0) = 0 := by
      rw [if_pos (by rw [hmean]; norm_num), sampleStd, hvar]
      simp
    rw [hvol]
    have hslope : lsSlope [(100 : ℚ), 100, 100, 100] = 0 := by
      norm_num [lsSlope, List.range_succ]
    have hchange : avg_change [(100 : ℚ), 100, 100, 100] = 0 := by
      rw [avg_change, if_pos (by norm_num)]
      norm_num [diffs, mean]
    rw [hslope, hchange]
    norm_num
  exact ⟨(forecast_rule "x" [(100 : ℚ), 100, 100, 100]).1.mpr (by norm_num),
    ((forecast_rule "x" [(100 : ℚ), 100, 100, 100]).2 _ heq).1⟩

/-! ## Claim C10: the dashboard inventory-status simulation -/

/-- Claim C10:  Because the dashboard simulates `current_inventory` as
`0.8 × reorder_point`, every ingredient with a positive reorder point is
classified `Low` (never `Good`), and whenever the simulated daily
consumption is positive, `days_until_reorder` is clamped to `0`. -/
theorem dashboard_status_never_good (rp safety forecast : ℚ) (h0 : 0 ≤ rp) :
    (0 < rp → (inventory_status_row rp safety forecast).status = InvStatus.Low) ∧
    (inventory_status_row rp safety forecast).status ≠ InvStatus.Good ∧
    (0 < forecast / 30 →
      (inventory_status_row rp safety forecast).days_until_reorder = 0) := by
  have hnotGood : ¬ rp < rp * 0.8 := by
    intro h
    nlinarith
  refine ⟨?_, ?_, ?_⟩
  · intro hrp
    show (if rp < rp * 0.8 then InvStatus.Good
      else if rp * 0.5 < rp * 0.8 then InvStatus.Low else InvStatus.Critical)
        = InvStatus.Low
    rw [if_neg hnotGood, if_pos (by nlinarith)]
  · show (if rp < rp * 0.8 then InvStatus.Good
      else if rp * 0.5 < rp * 0.8 then InvStatus.Low else InvStatus.Critical)
        ≠ InvStatus.Good
    rw [if_neg hnotGood]
    split <;> simp
  · intro hdaily
    show (if (if 0 < forecast / 30 then (rp * 0.8 - rp) / (forecast / 30) else 999)
          < 0 then 0
        else if 0 < forecast / 30 then (rp * 0.8 - rp) / (forecast / 30) else 999)
      = 0
    rw [if_pos hdaily]
    have hd : (rp * 0.8 - rp) / (forecast / 30) ≤ 0 :=
      div_nonpos_of_nonpos_of_nonneg (by linarith) hdaily.le
    by_cases hlt : (rp * 0.8 - rp) / (forecast / 30) < 0
    · rw [if_pos hlt]
    · rw [if_neg hlt]
      exact le_antisymm hd (not_lt.mp hlt)

/-- Witness for C10: reorder point `1`, forecast `30` — status is `Low`
and `days_until_reorder` is `0`. -/
theorem dashboard_status_witness :
    (inventory_status_row 1 0 30).status = InvStatus.Low ∧
    (inventory_status_row 1 0 30).days_until_reorder = 0 :=
  ⟨(dashboard_status_never_good 1 0 30 (by norm_num)).1 (by norm_num),
    (dashboard_status_never_good 1 0 30 (by norm_num)).2.2 (by norm_num)⟩

/-! ## Claim C8: unmatched sales items degrade gracefully -/

/-- Claim C8:  A sales record whose (trimmed) item name equals no recipe's
(trimmed) item name finds no recipe — the matcher is a total function, so
nothing is raised — contributes zero consumption records, and is still
retained in the item-level sales output with `has_ingredient_data = false`
(the output keeps one row per sales row, so unmatched items remain in sales
totals and can be surfaced as a count). -/
theorem unmatched_item_graceful (recipes : List Recipe) (sales : List SalesRecord)
    (s : SalesRecord) (hs : s ∈ sales)
    (hnm : ∀ r ∈ recipes, r.item_name.trim ≠ s.level_name.trim) :
    lookupRecipe recipes s.level_name = none ∧
    consumption_data recipes [s] = [] ∧
    (⟨s.month, s.level_name, s.count, s.amount, false⟩ : ItemSalesRow)
        ∈ item_sales_with_ingredients recipes sales ∧
    (item_sales_with_ingredients recipes sales).length = sales.length := by
  have hnone : lookupRecipe recipes s.level_name = none := by
    rw [lookupRecipe, List.find?_eq_none]
    intro r hr h
    exact hnm r hr (congrArg String.trim (by simpa using h))
  refine ⟨hnone, ?_, ?_, by simp [item_sales_with_ingredients]⟩
  · rw [consumption_data, hnone, consumption_data]
    rfl
  · rw [item_sales_with_ingredients]
    refine List.mem_map.mpr ⟨s, hs, ?_⟩
    rw [hnone]
    rfl

/-- Witness for C8: with no recipes at all, the item "Mystery Item" is
unmatched; it yields no consumption records but keeps its flagged sales
row. -/
theorem unmatched_item_witness :
    consumption_data [] [⟨"May", "Mystery Item", 3, 50⟩] = [] ∧
    (⟨"May", "Mystery Item", 3, 50, false⟩ : ItemSalesRow)
      ∈ item_sales_with_ingredients [] [⟨"May", "Mystery Item", 3, 50⟩] := by
  have h := unmatched_item_graceful []
      [⟨"May", "Mystery Item", 3, 50⟩] ⟨"May", "Mystery Item", 3, 50⟩
      (by simp) (by simp)
  exact ⟨h.2.1, h.2.2.1⟩

/-! ## Claim C7: the ingredient summary is a round-trip of the aggregation -/

/-- The monthly series of an ingredient, re-expressed as the per-key group
sums over only that ingredient's consumption records. -/
lemma seriesOf_monthly (records : List ConsumptionRecord) (ing : String) :
    seriesOf (monthly_consumption records) ing
      = ((((records.filter (fun c => c.ingredient == ing)).map crKey).dedup).map
          (fun k => (((records.filter (fun c => c.ingredient == ing)).filter
              (fun c => decide (crKey c = k))).map
                (fun c => c.total_consumption)).sum)) := by
  unfold seriesOf monthly_consumption
  rw [List.filter_map, List.map_map]
  have h1 : ((fun r : MonthlyRow => r.ingredient == ing) ∘ aggRow records)
      = fun k : String × String => k.2 == ing := rfl
  have h2 : ((fun r : MonthlyRow => r.total_consumption) ∘ aggRow records)
      = fun k : String × String =>
          ((records.filter (fun c => decide (crKey c = k))).map
            (fun c => c.total_consumption)).sum := rfl
  rw [h1, h2, ← dedup_filter, List.filter_map]
  have h3 : ((fun k : String × String => k.2 == ing) ∘ crKey)
      = fun c : ConsumptionRecord => c.ingredient == ing := rfl
  rw [h3]
  apply List.map_eq_map_iff.mpr
  intro k hk
  obtain ⟨c, hc, rfl⟩ := List.mem_map.mp (List.mem_dedup.mp hk)
  have hing : c.ingredient = ing := by simpa using (List.mem_filter.mp hc).2
  congr 1
  congr 1
  rw [List.filter_filter]
  apply List.filter_congr
  intro x hx
  by_cases hkx : crKey x = crKey c
  · have hxing : x.ingredient = ing := by
      rw [show x.ingredient = (crKey x).2 from rfl, hkx]
      exact hing
    simp [hkx, hxing]
  · simp [hkx]

/-- Claim C7:  For every ingredient appearing in some monthly aggregate row,
the summary's `total_consumption_6months` is the sum of `total_consumption`
over exactly that ingredient's aggregate rows — equivalently, over all of
its raw consumption records (the aggregation round-trip) — and
`avg_monthly_consumption` is the mean over only the active months (absent
months are not imputed as zero), `months_active` being the number of that
ingredient's aggregate rows. -/
theorem ingredient_summary_roundtrip (records : List ConsumptionRecord)
    (ing : String)
    (_hmem : ing ∈ (monthly_consumption records).map (fun r => r.ingredient)) :
    (summaryFor (monthly_consumption records) ing).total_consumption_6months
        = ((records.filter (fun c => c.ingredient == ing)).map
            (fun c => c.total_consumption)).sum
      ∧ (summaryFor (monthly_consumption records) ing).avg_monthly_consumption
        = (summaryFor (monthly_consumption records) ing).total_consumption_6months
          / ((summaryFor (monthly_consumption records) ing).months_active : ℚ)
      ∧ (summaryFor (monthly_consumption records) ing).months_active
        = ((monthly_consumption records).filter
            (fun r => r.ingredient == ing)).length := by
  refine ⟨?_, ?_, rfl⟩
  · show (seriesOf (monthly_consumption records) ing).sum = _
    rw [seriesOf_monthly]
    exact groups_sum crKey (fun c => c.total_consumption) _
  · show mean (seriesOf (monthly_consumption records) ing) = _
    rw [mean]
    have hlen : (seriesOf (monthly_consumption records) ing).length
        = ((monthly_consumption records).filter
            (fun r => r.ingredient == ing)).length := by
      rw [seriesOf, List.length_map]
    rw [hlen]
    rfl

/-- Witness for C7: two months of beef records sum to `450` over `2` active
months (fewer than 6). -/
theorem ingredient_summary_witness :
    (summaryFor (monthly_consumption
        [⟨"May", "Beef Noodle", 2, "beef_g", 150, 300, 800⟩,
         ⟨"June", "Beef Noodle", 1, "beef_g", 150, 150, 400⟩])
        "beef_g").total_consumption_6months = 450
      ∧ (summaryFor (monthly_consumption
          [⟨"May", "Beef Noodle", 2, "beef_g", 150, 300, 800⟩,
           ⟨"June", "Beef Noodle", 1, "beef_g", 150, 150, 400⟩])
          "beef_g").months_active = 2 := by
  have h := ingredient_summary_roundtrip
      [⟨"May", "Beef Noodle", 2, "beef_g", 150, 300, 800⟩,
       ⟨"June", "Beef Noodle", 1, "beef_g", 150, 150, 400⟩]
      "beef_g"
      (by simp [monthly_consumption, aggRow, crKey])
  constructor
  · rw [h.1]
    norm_num
  · rw [h.2.2]
    simp [monthly_consumption, aggRow, crKey]

/-! ## Claim C9: series of at most 5 months can never be flagged -/

/-- Claim C9:  Because the detector standardizes against the *sample*
standard deviation (pandas default `ddof = 1`), and
`|value − mean| / sample_std` can never exceed `(n−1)/√n`, which is below
the threshold `2` for every `n ≤ 5`, no month of a series with at most 5
non-missing months is ever flagged; anomalies are only reportable for full
6-month series. -/
theorem no_anomaly_in_short_series (xs : List ℚ) (v : ℚ) (hv : v ∈ xs)
    (h5 : xs.length ≤ 5) : ¬ isAnomaly xs v := by
  rw [isAnomaly_iff]
  rintro ⟨h2, hvar, hz⟩
  set n : ℚ := (xs.length : ℚ) with hn
  have hn3 : (3 : ℚ) ≤ n := by
    rw [hn]
    exact_mod_cast (show 3 ≤ xs.length by omega)
  have hn5 : n ≤ 5 := by
    rw [hn]
    exact_mod_cast h5
  have hn1 : (0 : ℚ) < n - 1 := by linarith
  have hvar_eq : sampleVar xs = sqDevSum xs / (n - 1) := by
    rw [sampleVar, if_neg (by omega)]
  have hS : 0 < sqDevSum xs := by
    by_contra hc
    push_neg at hc
    have h0 : sqDevSum xs = 0 := le_antisymm hc (sqDevSum_nonneg xs)
    rw [hvar_eq, h0, zero_div] at hvar
    exact lt_irrefl 0 hvar
  have hsam := samuelson xs v hv
  rw [← hn] at hsam
  rw [hvar_eq] at hz
  have hz' : 4 * sqDevSum xs < (v - mean xs) ^ 2 * (n - 1) := by
    calc 4 * sqDevSum xs = 4 * (sqDevSum xs / (n - 1)) * (n - 1) := by
          field_simp
      _ < (v - mean xs) ^ 2 * (n - 1) :=
          mul_lt_mul_of_pos_right hz hn1
  have hq : (0 : ℚ) < n := by linarith
  have h7 : 4 * n * sqDevSum xs < n * ((v - mean xs) ^ 2 * (n - 1)) := by
    have := mul_lt_mul_of_pos_left hz' hq
    nlinarith [this]
  have h8 : n * ((v - mean xs) ^ 2 * (n - 1)) ≤ (n - 1) * sqDevSum xs * (n - 1) := by
    nlinarith [mul_le_mul_of_nonneg_right hsam hn1.le]
  have h9 : 0 ≤ (n - 1) * (5 - n) := mul_nonneg (by linarith) (by linarith)
  nlinarith [h7, h8, mul_nonneg h9 hS.le]

/-- Witness for C9: in the 5-month series `[0,0,0,0,100]` even the extreme
month with value `100` is not flagged. -/
theorem no_anomaly_witness :
    ¬ isAnomaly [(0 : ℚ), 0, 0, 0, 100] 100 :=
  no_anomaly_in_short_series [(0 : ℚ), 0, 0, 0, 100] 100 (by norm_num) (by norm_num)

end MSY
